import Mathlib

/-
Verification of the transcript-retrieval and pagination core of the
youtube-playlist-processor repository (src/src/youtube_fetcher.py and
src/main.py), against its natural-language specification.

The external services (YouTube Data API listing endpoint, the
youtube_transcript_api library, Google Docs) are modelled as explicit
environment values: an environment records what each external call would
return or raise, and the embedded functions are deterministic functions of
that environment, mirroring the Python control flow statement by statement.
-/

namespace YTP

/-- One timed text segment, as returned by `transcript.fetch()` in
`fetch_transcript`; the Python code reads only its `text` field
(`entry['text']`). -/
structure Segment where
  text : String
deriving Repr, DecidableEq

/-- The exception classes caught by `fetch_transcript`'s handlers:
`TranscriptsDisabled`, `NoTranscriptFound`, `VideoUnavailable`, and the
catch-all `Exception` (network, parsing, quota, ...). -/
inductive FetchErr where
  | transcriptsDisabled
  | noTranscriptFound
  | videoUnavailable
  | otherError
deriving Repr, DecidableEq

/-- One transcript variant from the external transcript-listing service:
its `language_code` attribute and the outcome of calling `.fetch()` on it
(either the segment list, or the exception that call raises). -/
structure Transcript where
  language_code : String
  fetchResult : Except FetchErr (List Segment)
deriving Repr

/-- The environment of one `fetch_transcript(video_id)` call: the outcome of
`YouTubeTranscriptApi.list_transcripts(video_id)` — either the list of
available transcript variants in server-provided order, or a raised
exception. -/
structure FetchEnv where
  listing : Except FetchErr (List Transcript)
deriving Repr

/-- The dictionary returned by `fetch_transcript`: keys `text`, `language`
(`None` modelled as `none`) and `status` (one of the literal strings
`"available"`, `"unavailable"`, `"error"`). -/
structure ResolvedAsset where
  text : String
  language : Option String
  status : String
deriving Repr, DecidableEq

/-- The exception-handler clauses of `fetch_transcript`: `TranscriptsDisabled`
and `NoTranscriptFound` return status `"unavailable"`; `VideoUnavailable` and
the generic `Exception` handler return status `"error"`; all four return
empty text and `None` language. -/
def classifyError : FetchErr → ResolvedAsset
  | .transcriptsDisabled => ⟨"", none, "unavailable"⟩
  | .noTranscriptFound => ⟨"", none, "unavailable"⟩
  | .videoUnavailable => ⟨"", none, "error"⟩
  | .otherError => ⟨"", none, "error"⟩

/-- The external library call `transcript_list.find_transcript(['en'])`,
modelled from its documented behaviour as used by the spec: it returns the
first variant whose language code is `"en"`, and raises `NoTranscriptFound`
(here: `none`) when no such variant exists. -/
def find_transcript_en (ts : List Transcript) : Option Transcript :=
  ts.find? (fun t => t.language_code == "en")

/-- The selection block of `fetch_transcript` (the inner try/except): prefer
the English transcript via `find_transcript(['en'])` and set `language='en'`;
on `NoTranscriptFound` fall back to `list(transcript_list)[0]` with its own
`language_code` when the list is non-empty; otherwise no transcript is
selected. -/
def selectTranscript (ts : List Transcript) : Option (Transcript × String) :=
  match find_transcript_en ts with
  | some t => some (t, "en")
  | none =>
    match ts with
    | [] => none
    | t :: _ => some (t, t.language_code)

/-- The concatenation `' '.join([entry['text'] for entry in transcript_data])`
in `fetch_transcript`. -/
def joinSegments (segs : List Segment) : String :=
  String.intercalate " " (segs.map (fun s => s.text))

/-- The body of `fetch_transcript`'s outer `try` block: any exception raised
by `list_transcripts` or by the selected transcript's `fetch()` propagates
(as `.error`) to the handlers. -/
def fetch_transcript_body (env : FetchEnv) : Except FetchErr ResolvedAsset :=
  match env.listing with
  | .error e => .error e
  | .ok ts =>
    match selectTranscript ts with
    | none => .ok ⟨"", none, "unavailable"⟩
    | some (t, lang) =>
      match t.fetchResult with
      | .error e => .error e
      | .ok segs => .ok ⟨joinSegments segs, some lang, "available"⟩

/-- The whole of `YouTubeFetcher.fetch_transcript`: the `try` body wrapped in
the four exception handlers, so every environment yields a `ResolvedAsset`. -/
def fetch_transcript (env : FetchEnv) : ResolvedAsset :=
  match fetch_transcript_body env with
  | .ok r => r
  | .error e => classifyError e

/-! ## Collection enumeration (`get_playlist_video_ids`) -/

/-- One response of the playlist-listing endpoint: `items` holds the member
identifiers extracted as `item['contentDetails']['videoId']`, in response
order; `nextPageToken` is `response.get('nextPageToken')` (`none` when the
field is absent). -/
structure PageResponse where
  items : List String
  nextPageToken : Option String
deriving Repr, DecidableEq

/-- Python truthiness of the cursor, as tested by `if not next_page_token`:
`None` and the empty string are falsy, every other string is truthy. -/
def tokenTruthy : Option String → Bool
  | none => false
  | some s => s != ""

/-- Outcome of `get_playlist_video_ids` on a finite server script:
`done` is a normal return with the accumulated ids, `failed` is the
re-raised exception of a page request (carrying its cause), and `pending`
means the script was exhausted while the loop still awaited a further page
(the real loop would keep requesting). -/
inductive ListOutcome where
  | done (ids : List String)
  | failed (cause : String)
  | pending (ids : List String)
deriving Repr, DecidableEq

/-- The `while True` pagination loop of `get_playlist_video_ids`, run against
a server script: the list of responses the listing service will give to the
successive requests, each either a page or a raised exception (`HttpError` or
any other, both of which the handlers re-raise). `acc` is the `video_ids`
accumulator. -/
def get_playlist_video_ids_loop :
    List (Except String PageResponse) → List String → ListOutcome
  | [], acc => .pending acc
  | .error e :: _, _ => .failed e
  | .ok r :: rest, acc =>
    if tokenTruthy r.nextPageToken then
      get_playlist_video_ids_loop rest (acc ++ r.items)
    else
      .done (acc ++ r.items)

/-- `YouTubeFetcher.get_playlist_video_ids`: the loop started with an empty
accumulator and no page token. -/
def get_playlist_video_ids (script : List (Except String PageResponse)) :
    ListOutcome :=
  get_playlist_video_ids_loop script []

/-- A server script of k ok-pages whose final cursor is non-truthy (absent or
empty) and whose earlier cursors are all truthy: the shape the spec calls
"k pages with a terminating final cursor". -/
def terminatingScript : List PageResponse → Bool
  | [] => false
  | [r] => !(tokenTruthy r.nextPageToken)
  | r :: rest => tokenTruthy r.nextPageToken && terminatingScript rest

/-! ## Playlist-id extraction (`extract_playlist_id` in `src/main.py`)

`extract_playlist_id` is built from the Python builtins `sep in url` and
`url.split(sep)`; both are modelled here over character lists, exactly with
Python's semantics for a non-empty separator. -/

/-- Python prefix test with remainder: `chopPat pat s = some rest` exactly
when `s = pat ++ rest`. -/
def chopPat : List Char → List Char → Option (List Char)
  | [], s => some s
  | _ :: _, [] => none
  | p :: ps, c :: cs => if p == c then chopPat ps cs else none

/-- The suffix of `s` strictly after the first occurrence of `pat`, or `none`
when `pat` does not occur in `s`; `(afterFirstPat pat s).isSome` is Python's
substring test `pat in s`. -/
def afterFirstPat (pat : List Char) : List Char → Option (List Char)
  | [] => chopPat pat []
  | c :: cs =>
    match chopPat pat (c :: cs) with
    | some rest => some rest
    | none => afterFirstPat pat cs

/-- The characters of `s` strictly before the first occurrence of `pat`
(all of `s` when `pat` does not occur). -/
def upToFirstPat (pat : List Char) : List Char → List Char
  | [] => []
  | c :: cs =>
    if (chopPat pat (c :: cs)).isSome then []
    else c :: upToFirstPat pat cs

/-- Python `s.split(sep)` for a non-empty `sep`, over character lists: scan
left to right; at each position where `sep` matches, close the current field
and continue after the separator. `fuel` bounds the recursion structurally;
`s.length` is always enough fuel since every step consumes at least one
character. -/
def pySplitAux (pat : List Char) : Nat → List Char → List Char → List (List Char)
  | 0, _, acc => [acc.reverse]
  | _ + 1, [], acc => [acc.reverse]
  | fuel + 1, c :: cs, acc =>
    match chopPat pat (c :: cs) with
    | some rest => acc.reverse :: pySplitAux pat fuel rest []
    | none => pySplitAux pat fuel cs (c :: acc)

/-- Python `s.split(sep)` for a non-empty `sep`. -/
def pySplit (pat s : List Char) : List (List Char) :=
  pySplitAux pat s.length s []

/-- `extract_playlist_id` from `src/main.py`:
`url.split("list=")[1].split("&")[0]` when `"list=" in url`, else a raised
`ValueError` (modelled as `.error` with the message). Under the guard the
first split has at least two fields, so `List.getD`'s default is never
read. -/
def extract_playlist_id (url : String) : Except String String :=
  if (afterFirstPat "list=".data url.data).isSome then
    .ok ⟨List.headD (pySplit "&".data ((pySplit "list=".data url.data).getD 1 [])) []⟩
  else
    .error ("Invalid playlist URL: " ++ url)

/-- Modelled from the claim's words, for comparison with the source: return
the substring strictly between the first occurrence of `"list="` and the next
`'&'` (or the end of the string if no `'&'` follows); `ValueError` when
`"list="` does not occur. -/
def extract_claim (url : String) : Except String String :=
  match afterFirstPat "list=".data url.data with
  | some rest => .ok ⟨upToFirstPat "&".data rest⟩
  | none => .error ("Invalid playlist URL: " ++ url)

/-- Decidable equality for `Except`, so concrete outcomes can be compared by
`decide`. -/
instance {ε α : Type} [DecidableEq ε] [DecidableEq α] : DecidableEq (Except ε α) := fun a b =>
  match a, b with
  | .ok x, .ok y => if h : x = y then .isTrue (by rw [h]) else .isFalse (by simp [h])
  | .error x, .error y => if h : x = y then .isTrue (by rw [h]) else .isFalse (by simp [h])
  | .ok _, .error _ => .isFalse (by simp)
  | .error _, .ok _ => .isFalse (by simp)

/-- An environment in which the transcript listing succeeds with a single
English variant whose `fetch()` returns an empty segment list. -/
def cexAvailEmpty : FetchEnv := ⟨.ok [⟨"en", .ok []⟩]⟩

/-! ## Storage stub (`store_raw_transcript_in_google_docs`) -/

/-- `YouTubeFetcher.store_raw_transcript_in_google_docs`: the try body only
logs and builds the placeholder URL f-string, so it always returns it; the
`except` branch returning `None` is dead. -/
def store_raw_transcript_in_google_docs
    (video_id : String) (transcript_text : String) : Option String :=
  some ("https://docs.google.com/document/d/placeholder_" ++ video_id)

/-! ## Theorems about the asset resolver -/

/-- Every run of `fetch_transcript` ends in one of exactly three result
shapes: an available result carrying a joined text and a language, or one of
the two empty results. -/
theorem fetch_transcript_shape (env : FetchEnv) :
    (∃ lang segs, fetch_transcript env = ⟨joinSegments segs, some lang, "available"⟩) ∨
    fetch_transcript env = ⟨"", none, "unavailable"⟩ ∨
    fetch_transcript env = ⟨"", none, "error"⟩ := by
  obtain ⟨listing⟩ := env
  cases listing with
  | error e =>
    cases e <;> simp [fetch_transcript, fetch_transcript_body, classifyError]
  | ok ts =>
    cases hs : selectTranscript ts with
    | none => simp [fetch_transcript, fetch_transcript_body, hs]
    | some tl =>
      obtain ⟨t, lang⟩ := tl
      cases hf : t.fetchResult with
      | error e =>
        cases e <;>
          simp [fetch_transcript, fetch_transcript_body, hs, hf, classifyError]
      | ok segs =>
        exact Or.inl ⟨lang, segs, by
          simp [fetch_transcript, fetch_transcript_body, hs, hf]⟩

/-- C1 counterexample: on a listing with one English variant whose fetch
yields an empty segment list, `fetch_transcript` returns status
`"available"` with empty text, refuting the claimed equivalence between
`status = "available"` and non-empty text. -/
theorem C1_counterexample :
    (fetch_transcript cexAvailEmpty).status = "available" ∧
    (fetch_transcript cexAvailEmpty).text = "" ∧
    ¬((fetch_transcript cexAvailEmpty).status = "available" ↔
      ((fetch_transcript cexAvailEmpty).text ≠ "" ∧
        (fetch_transcript cexAvailEmpty).language ≠ none)) := by
  decide

/-- C1 (amended): for every input, the result of `fetch_transcript` has
status `"available"` iff its language is non-null; whenever the status is
`"unavailable"` or `"error"`, the text is empty and the language is null; and
any result with non-empty text has status `"available"`. (The original
biconditional with non-empty text fails: an available transcript may have
empty text.) -/
theorem C1_status_invariant (env : FetchEnv) :
    ((fetch_transcript env).status = "available" ↔
      (fetch_transcript env).language ≠ none) ∧
    (((fetch_transcript env).status = "unavailable" ∨
        (fetch_transcript env).status = "error") →
      (fetch_transcript env).text = "" ∧ (fetch_transcript env).language = none) ∧
    ((fetch_transcript env).text ≠ "" → (fetch_transcript env).status = "available") := by
  rcases fetch_transcript_shape env with ⟨lang, segs, h⟩ | h | h <;> rw [h] <;> simp

/-- C1 witness: the amended invariant instantiated at a concrete failing
environment. -/
theorem C1_status_invariant_witness :
    (fetch_transcript ⟨.error .otherError⟩).text = "" ∧
    (fetch_transcript ⟨.error .otherError⟩).language = none :=
  (C1_status_invariant ⟨.error .otherError⟩).2.1 (Or.inr (by decide))

/-- C2: `fetch_transcript` never propagates an exception — it is a total
function of the environment (including every failure the external transcript
services can raise), and every path yields a `ResolvedAsset` whose status is
one of the three documented strings. -/
theorem C2_never_throws (env : FetchEnv) :
    (fetch_transcript env).status = "available" ∨
    (fetch_transcript env).status = "unavailable" ∨
    (fetch_transcript env).status = "error" := by
  rcases fetch_transcript_shape env with ⟨lang, segs, h⟩ | h | h <;> rw [h] <;> simp

/-- C3: the failure classification of `fetch_transcript`:
transcripts-disabled yields `"unavailable"`; selection finding no variant
yields `"unavailable"`; member-unavailable yields `"error"`; any other
unexpected failure yields `"error"`; and `"error"` and `"unavailable"` are
distinct statuses. -/
theorem C3_failure_classification :
    (∀ env : FetchEnv, env.listing = .error .transcriptsDisabled →
      fetch_transcript env = ⟨"", none, "unavailable"⟩) ∧
    (∀ (env : FetchEnv) (ts : List Transcript), env.listing = .ok ts →
      selectTranscript ts = none →
      fetch_transcript env = ⟨"", none, "unavailable"⟩) ∧
    (∀ env : FetchEnv, env.listing = .error .videoUnavailable →
      fetch_transcript env = ⟨"", none, "error"⟩) ∧
    (∀ env : FetchEnv, env.listing = .error .otherError →
      fetch_transcript env = ⟨"", none, "error"⟩) ∧
    ("error" : String) ≠ "unavailable" := by
  refine ⟨?_, ?_, ?_, ?_, by decide⟩
  · intro env h
    simp [fetch_transcript, fetch_transcript_body, h, classifyError]
  · intro env ts h hsel
    simp [fetch_transcript, fetch_transcript_body, h, hsel]
  · intro env h
    simp [fetch_transcript, fetch_transcript_body, h, classifyError]
  · intro env h
    simp [fetch_transcript, fetch_transcript_body, h, classifyError]

/-- C3 witness: the classification applied at one concrete environment per
failure cause. -/
theorem C3_failure_classification_witness :
    fetch_transcript ⟨.error .transcriptsDisabled⟩ = ⟨"", none, "unavailable"⟩ ∧
    fetch_transcript ⟨.ok []⟩ = ⟨"", none, "unavailable"⟩ ∧
    fetch_transcript ⟨.error .videoUnavailable⟩ = ⟨"", none, "error"⟩ ∧
    fetch_transcript ⟨.error .otherError⟩ = ⟨"", none, "error"⟩ :=
  ⟨C3_failure_classification.1 _ rfl,
   C3_failure_classification.2.1 _ [] rfl rfl,
   C3_failure_classification.2.2.1 _ rfl,
   C3_failure_classification.2.2.2.1 _ rfl⟩

/-- C4: the selection policy of `fetch_transcript`, first match winning: if
some variant has language code `"en"`, a variant with language code `"en"`
is selected (whatever the set's order) and the reported language is `"en"`;
else if the set is non-empty its first variant is selected with its own
language code; else the result is the unavailable record and no segment
fetch is attempted (there is no variant whose fetch could be consulted). -/
theorem C4_selection_policy :
    (∀ ts : List Transcript, (∃ t ∈ ts, t.language_code = "en") →
      ∃ t ∈ ts, t.language_code = "en" ∧ selectTranscript ts = some (t, "en")) ∧
    (∀ (t : Transcript) (rest : List Transcript),
      (∀ u ∈ t :: rest, u.language_code ≠ "en") →
      selectTranscript (t :: rest) = some (t, t.language_code)) ∧
    (∀ env : FetchEnv, env.listing = .ok [] →
      fetch_transcript env = ⟨"", none, "unavailable"⟩) := by
  refine ⟨?_, ?_, ?_⟩
  · intro ts hex
    have hsome : (ts.find? (fun t => t.language_code == "en")).isSome := by
      rw [List.find?_isSome]
      obtain ⟨t, hmem, hlang⟩ := hex
      exact ⟨t, hmem, by simp [hlang]⟩
    obtain ⟨t, hfind⟩ := Option.isSome_iff_exists.mp hsome
    refine ⟨t, List.mem_of_find?_eq_some hfind, ?_, ?_⟩
    · have := List.find?_some hfind
      simpa using this
    · simp [selectTranscript, find_transcript_en, hfind]
  · intro t rest hne
    have hfind : (t :: rest).find? (fun u => u.language_code == "en") = none := by
      rw [List.find?_eq_none]
      intro u hu
      simpa using hne u hu
    simp [selectTranscript, find_transcript_en, hfind]
  · intro env h
    simp [fetch_transcript, fetch_transcript_body, h, selectTranscript,
      find_transcript_en]

/-- C4 witness: the policy applied at concrete variant sets — with `"en"`
second in the set the selected language is still `"en"`; with only `"de"`
the first (only) variant is selected; the empty set yields the unavailable
record. -/
theorem C4_selection_policy_witness :
    (selectTranscript [⟨"fr", .ok []⟩, ⟨"en", .ok []⟩]).map Prod.snd = some "en" ∧
    selectTranscript [⟨"de", .ok []⟩] = some (⟨"de", .ok []⟩, "de") ∧
    fetch_transcript ⟨.ok []⟩ = ⟨"", none, "unavailable"⟩ := by
  refine ⟨?_, ?_, C4_selection_policy.2.2 ⟨.ok []⟩ rfl⟩
  · obtain ⟨t, _, _, hsel⟩ :=
      C4_selection_policy.1 [⟨"fr", .ok []⟩, ⟨"en", .ok []⟩]
        ⟨⟨"en", .ok []⟩, by simp, rfl⟩
    rw [hsel]
    rfl
  · exact C4_selection_policy.2.1 ⟨"de", .ok []⟩ [] (by simp)

/-- C7: when a variant is selected and its fetch succeeds, the returned text
is the segments' texts joined with a single space, in given order, and the
status is `"available"` with the selected language; the spec's example
segments `Hello`, `world` produce exactly `Hello world`. -/
theorem C7_segment_join :
    (∀ (env : FetchEnv) (ts : List Transcript) (t : Transcript) (lang : String)
        (segs : List Segment),
      env.listing = .ok ts → selectTranscript ts = some (t, lang) →
      t.fetchResult = .ok segs →
      fetch_transcript env = ⟨joinSegments segs, some lang, "available"⟩) ∧
    joinSegments [⟨"Hello"⟩, ⟨"world"⟩] = "Hello world" := by
  refine ⟨?_, by decide⟩
  intro env ts t lang segs h hsel hfetch
  simp [fetch_transcript, fetch_transcript_body, h, hsel, hfetch]

/-- C7 witness: the join property applied at a concrete one-variant
environment with segments `Hello` and `world`. -/
theorem C7_segment_join_witness :
    fetch_transcript ⟨.ok [⟨"fr", .ok [⟨"Hello"⟩, ⟨"world"⟩]⟩]⟩ =
      ⟨"Hello world", some "fr", "available"⟩ := by
  have h :=
    C7_segment_join.1 ⟨.ok [⟨"fr", .ok [⟨"Hello"⟩, ⟨"world"⟩]⟩]⟩
      [⟨"fr", .ok [⟨"Hello"⟩, ⟨"world"⟩]⟩]
      ⟨"fr", .ok [⟨"Hello"⟩, ⟨"world"⟩]⟩ "fr" [⟨"Hello"⟩, ⟨"world"⟩]
      rfl rfl rfl
  exact h.trans (by decide)

/-! ## Theorems about the collection enumerator -/

/-- Running the pagination loop through a block of ok-pages with truthy
cursors appends their items, in order, to the accumulator and continues with
the rest of the script. -/
theorem loop_ok_append (good : List PageResponse)
    (h : ∀ p ∈ good, tokenTruthy p.nextPageToken = true)
    (rest : List (Except String PageResponse)) (acc : List String) :
    get_playlist_video_ids_loop (good.map .ok ++ rest) acc =
      get_playlist_video_ids_loop rest
        (acc ++ (good.map PageResponse.items).flatten) := by
  induction good generalizing acc with
  | nil => simp
  | cons r rs ih =>
    have hr : tokenTruthy r.nextPageToken = true := h r (by simp)
    have hrs : ∀ p ∈ rs, tokenTruthy p.nextPageToken = true := fun p hp =>
      h p (by simp [hp])
    simp [get_playlist_video_ids_loop, hr, ih hrs, List.append_assoc]

/-- One loop step on a successful page with a truthy cursor: append its
items and continue. -/
theorem loop_step_continue {r : PageResponse}
    (h : tokenTruthy r.nextPageToken = true)
    (rest : List (Except String PageResponse)) (acc : List String) :
    get_playlist_video_ids_loop (.ok r :: rest) acc =
      get_playlist_video_ids_loop rest (acc ++ r.items) := by
  simp [get_playlist_video_ids_loop, h]

/-- One loop step on a successful page with a non-truthy cursor: append its
items and return. -/
theorem loop_step_stop {r : PageResponse}
    (h : tokenTruthy r.nextPageToken = false)
    (rest : List (Except String PageResponse)) (acc : List String) :
    get_playlist_video_ids_loop (.ok r :: rest) acc = .done (acc ++ r.items) := by
  simp [get_playlist_video_ids_loop, h]

/-- On a terminating script the loop returns normally with the accumulator
followed by every page's items in order. -/
theorem loop_terminating (pages : List PageResponse)
    (h : terminatingScript pages = true) :
    ∀ acc, get_playlist_video_ids_loop (pages.map .ok) acc =
      .done (acc ++ (pages.map PageResponse.items).flatten) := by
  induction pages with
  | nil => simp [terminatingScript] at h
  | cons r rs ih =>
    intro acc
    cases rs with
    | nil =>
      have hr : tokenTruthy r.nextPageToken = false := by
        simpa [terminatingScript] using h
      rw [List.map_cons, List.map_nil, loop_step_stop hr]
      simp
    | cons r2 rs2 =>
      have h2 : tokenTruthy r.nextPageToken = true ∧
          terminatingScript (r2 :: rs2) = true := by
        simpa [terminatingScript] using h
      rw [List.map_cons, loop_step_continue h2.1, ih h2.2]
      simp [List.append_assoc]

/-- C5: for every server script of k ok-pages whose final cursor terminates,
`get_playlist_video_ids` returns exactly the concatenation of the pages'
member identifiers, in page order and within-page order (duplicates passed
through unchanged), with total length the sum of the page lengths. -/
theorem C5_pagination_concat (pages : List PageResponse)
    (h : terminatingScript pages = true) :
    get_playlist_video_ids (pages.map .ok) =
      .done ((pages.map PageResponse.items).flatten) ∧
    ((pages.map PageResponse.items).flatten).length =
      (pages.map fun p => p.items.length).sum := by
  constructor
  · simpa [get_playlist_video_ids] using loop_terminating pages h []
  · simp [List.length_flatten, List.map_map, Function.comp_def]

/-- C5 witness: a two-page playlist (pages `[a, b]` then `[c]`) enumerates to
`[a, b, c]`. -/
theorem C5_pagination_concat_witness :
    get_playlist_video_ids
        ([⟨["a", "b"], some "t"⟩, ⟨["c"], none⟩].map .ok) =
      .done ["a", "b", "c"] :=
  (C5_pagination_concat [⟨["a", "b"], some "t"⟩, ⟨["c"], none⟩]
    (by decide)).1.trans (by decide)

/-- C6: if any page request fails — including the first — the enumeration
returns no partial list: after any block of successful truthy-cursor pages,
a failing request makes `get_playlist_video_ids` surface exactly the
underlying cause, whatever responses would have followed (so no retry is
attempted and the accumulated ids are discarded). -/
theorem C6_page_failure_aborts (good : List PageResponse)
    (h : ∀ p ∈ good, tokenTruthy p.nextPageToken = true)
    (cause : String) (rest : List (Except String PageResponse)) :
    get_playlist_video_ids (good.map .ok ++ .error cause :: rest) =
      .failed cause := by
  rw [get_playlist_video_ids, loop_ok_append good h]
  rfl

/-- C6 witness: a failure on the very first page aborts with that cause. -/
theorem C6_page_failure_aborts_witness :
    get_playlist_video_ids [.error "HttpError 403"] = .failed "HttpError 403" :=
  C6_page_failure_aborts [] (by simp) "HttpError 403" []

/-- C8: the pagination loop terminates exactly on the server ceasing to
return a truthy cursor: every terminating script yields a normal return,
while a script of any length whose cursors are all truthy leaves the loop
still awaiting a further page — there is no internal guard bounding the
iteration count. -/
theorem C8_termination :
    (∀ pages : List PageResponse, terminatingScript pages = true →
      ∃ ids, get_playlist_video_ids (pages.map .ok) = .done ids) ∧
    (∀ pages : List PageResponse,
      (∀ p ∈ pages, tokenTruthy p.nextPageToken = true) →
      get_playlist_video_ids (pages.map .ok) =
        .pending ((pages.map PageResponse.items).flatten)) := by
  constructor
  · intro pages h
    exact ⟨(pages.map PageResponse.items).flatten, by
      simpa [get_playlist_video_ids] using loop_terminating pages h []⟩
  · intro pages h
    have := loop_ok_append pages h [] []
    simpa [get_playlist_video_ids, get_playlist_video_ids_loop] using this

/-- C8 witness: a single all-truthy page leaves the loop pending, and a
single terminating page does not fail. -/
theorem C8_termination_witness :
    get_playlist_video_ids ([(⟨["a"], some "t"⟩ : PageResponse)].map .ok) =
      .pending ["a"] ∧
    get_playlist_video_ids ([(⟨["a"], none⟩ : PageResponse)].map .ok) ≠
      .failed "x" := by
  constructor
  · simpa using C8_termination.2 [⟨["a"], some "t"⟩] (by decide)
  · obtain ⟨ids, hd⟩ := C8_termination.1 [⟨["a"], none⟩] (by decide)
    rw [hd]
    simp

/-! ## Theorems about playlist-id extraction -/

/-- A successful prefix chop accounts for the pattern's length. -/
theorem chopPat_length {pat s r : List Char} (h : chopPat pat s = some r) :
    s.length = pat.length + r.length := by
  induction pat generalizing s with
  | nil =>
    simp only [chopPat, Option.some.injEq] at h
    subst h
    simp
  | cons p ps ih =>
    cases s with
    | nil => simp [chopPat] at h
    | cons c cs =>
      simp only [chopPat] at h
      split at h
      · have hl := ih h
        simp only [List.length_cons]
        omega
      · simp at h

/-- For a non-empty pattern the chop of the empty string fails. -/
theorem chopPat_nil {pat : List Char} (hpat : pat ≠ []) :
    chopPat pat [] = none := by
  cases pat with
  | nil => exact absurd rfl hpat
  | cons p ps => rfl

/-- For a non-empty pattern, `pySplitAux` does not depend on the fuel, as
long as the fuel covers the string's length. -/
theorem pySplitAux_fuelIrrel {pat : List Char} (hpat : pat ≠ []) :
    ∀ (f1 f2 : Nat) (s acc : List Char), s.length ≤ f1 → s.length ≤ f2 →
      pySplitAux pat f1 s acc = pySplitAux pat f2 s acc := by
  intro f1
  induction f1 with
  | zero =>
    intro f2 s acc h1 h2
    have hs : s = [] := List.length_eq_zero.mp (Nat.le_zero.mp h1)
    subst hs
    cases f2 <;> simp [pySplitAux]
  | succ f1 ih =>
    intro f2 s acc h1 h2
    cases s with
    | nil => cases f2 <;> simp [pySplitAux]
    | cons c cs =>
      cases f2 with
      | zero => simp at h2
      | succ f2 =>
        have hcs1 : cs.length ≤ f1 := by
          simp only [List.length_cons] at h1; omega
        have hcs2 : cs.length ≤ f2 := by
          simp only [List.length_cons] at h2; omega
        cases hc : chopPat pat (c :: cs) with
        | some rest =>
          have hr : rest.length ≤ cs.length := by
            have hl := chopPat_length hc
            cases pat with
            | nil => exact absurd rfl hpat
            | cons p ps => simp only [List.length_cons] at hl; omega
          simp only [pySplitAux, hc]
          exact congrArg _ (ih f2 rest [] (by omega) (by omega))
        | none =>
          simp only [pySplitAux, hc]
          exact ih f2 cs (c :: acc) hcs1 hcs2

/-- A split is never the empty list of fields. -/
theorem pySplitAux_ne_nil (pat : List Char) :
    ∀ (fuel : Nat) (s acc : List Char), pySplitAux pat fuel s acc ≠ [] := by
  intro fuel
  induction fuel with
  | zero => intro s acc; simp [pySplitAux]
  | succ fuel ih =>
    intro s acc
    cases s with
    | nil => simp [pySplitAux]
    | cons c cs =>
      cases hc : chopPat pat (c :: cs) with
      | some rest => simp [pySplitAux, hc]
      | none => simpa [pySplitAux, hc] using ih cs (c :: acc)

/-- Structure of a split: the field before the first occurrence of the
pattern, followed by the split of the suffix after that occurrence; a single
field holding the whole string when the pattern does not occur. -/
theorem pySplitAux_decomp {pat : List Char} (hpat : pat ≠ []) :
    ∀ (fuel : Nat) (s acc : List Char), s.length ≤ fuel →
      pySplitAux pat fuel s acc =
        match afterFirstPat pat s with
        | none => [acc.reverse ++ s]
        | some rest => (acc.reverse ++ upToFirstPat pat s) :: pySplit pat rest := by
  intro fuel
  induction fuel with
  | zero =>
    intro s acc h
    have hs : s = [] := List.length_eq_zero.mp (Nat.le_zero.mp h)
    subst hs
    simp [pySplitAux, afterFirstPat, chopPat_nil hpat]
  | succ fuel ih =>
    intro s acc h
    cases s with
    | nil => simp [pySplitAux, afterFirstPat, chopPat_nil hpat]
    | cons c cs =>
      cases hc : chopPat pat (c :: cs) with
      | some rest =>
        have haf : afterFirstPat pat (c :: cs) = some rest := by
          simp [afterFirstPat, hc]
        have hup : upToFirstPat pat (c :: cs) = [] := by
          simp [upToFirstPat, hc]
        have hr : rest.length ≤ fuel := by
          have hl := chopPat_length hc
          cases pat with
          | nil => exact absurd rfl hpat
          | cons p ps =>
            simp only [List.length_cons] at hl h
            omega
        simp only [pySplitAux, hc, haf, hup, List.append_nil]
        exact congrArg _ (pySplitAux_fuelIrrel hpat fuel rest.length rest [] hr le_rfl)
      | none =>
        have haf : afterFirstPat pat (c :: cs) = afterFirstPat pat cs := by
          simp [afterFirstPat, hc]
        have hup : upToFirstPat pat (c :: cs) = c :: upToFirstPat pat cs := by
          simp [upToFirstPat, hc]
        have hlen : cs.length ≤ fuel := by
          simp only [List.length_cons] at h; omega
        simp only [pySplitAux, hc, haf, hup, ih cs (c :: acc) hlen]
        cases afterFirstPat pat cs <;>
          simp [List.reverse_cons, List.append_assoc]

/-- When the pattern does not occur, everything is before its first
occurrence. -/
theorem upToFirstPat_of_none {pat : List Char} :
    ∀ {s : List Char}, afterFirstPat pat s = none → upToFirstPat pat s = s := by
  intro s
  induction s with
  | nil => intro _; rfl
  | cons c cs ih =>
    intro h
    cases hc : chopPat pat (c :: cs) with
    | some rest => simp [afterFirstPat, hc] at h
    | none =>
      have h' : afterFirstPat pat cs = none := by
        simpa [afterFirstPat, hc] using h
      simp [upToFirstPat, hc, ih h']

/-- The first field of a split is exactly the segment before the first
occurrence of the pattern. -/
theorem pySplit_headD {pat : List Char} (hpat : pat ≠ []) (s : List Char) :
    (pySplit pat s).headD [] = upToFirstPat pat s := by
  have hd : pySplit pat s =
      match afterFirstPat pat s with
      | none => [List.reverse [] ++ s]
      | some rest => (List.reverse [] ++ upToFirstPat pat s) :: pySplit pat rest :=
    pySplitAux_decomp hpat s.length s [] le_rfl
  rw [pySplit] at hd ⊢
  rw [hd]
  cases haf : afterFirstPat pat s with
  | none => simp [upToFirstPat_of_none haf]
  | some rest => simp

/-- C9 counterexample: on `list=Alist=B` the code returns `A` (Python's
`split` cuts at every occurrence of `list=`), while the claimed reading —
everything strictly between the first `list=` and the next `&` or the end —
would return `Alist=B`. -/
theorem C9_counterexample :
    extract_playlist_id "list=Alist=B" = .ok "A" ∧
    extract_claim "list=Alist=B" = .ok "Alist=B" ∧
    extract_playlist_id "list=Alist=B" ≠ extract_claim "list=Alist=B" := by
  refine ⟨rfl, rfl, ?_⟩
  decide

/-- C9 (amended): for every URL in which `list=` occurs exactly once (the
first split yields exactly two fields), `extract_playlist_id` returns the
substring strictly between that occurrence and the next `&` (or the end of
the string); for every URL not containing `list=`, it raises `ValueError`.
(The original claim fails when `list=` occurs again before any `&`.) -/
theorem C9_amended_extraction (url : String) :
    ((pySplit "list=".data url.data).length = 2 →
      extract_playlist_id url = extract_claim url) ∧
    (afterFirstPat "list=".data url.data = none →
      extract_playlist_id url = .error ("Invalid playlist URL: " ++ url)) := by
  constructor
  · intro h2
    have hpat : ("list=".data : List Char) ≠ [] := by decide
    cases haf : afterFirstPat "list=".data url.data with
    | none =>
      have hd : pySplit "list=".data url.data = [List.reverse [] ++ url.data] := by
        have hh := pySplitAux_decomp hpat url.data.length url.data [] le_rfl
        rw [haf] at hh
        exact hh
      rw [hd] at h2
      simp at h2
    | some rest =>
      have hd : pySplit "list=".data url.data =
          (List.reverse [] ++ upToFirstPat "list=".data url.data) ::
            pySplit "list=".data rest := by
        have hh := pySplitAux_decomp hpat url.data.length url.data [] le_rfl
        rw [haf] at hh
        exact hh
      simp only [List.reverse_nil, List.nil_append] at hd
      have hlen1 : (pySplit "list=".data rest).length = 1 := by
        rw [hd] at h2
        simpa using h2
      have hd2 : pySplit "list=".data rest = [rest] := by
        have hh := pySplitAux_decomp hpat rest.length rest [] le_rfl
        cases haf2 : afterFirstPat "list=".data rest with
        | none =>
          rw [haf2] at hh
          simpa using hh
        | some r2 =>
          exfalso
          rw [haf2] at hh
          rw [show pySplit "list=".data rest = _ from hh] at hlen1
          simp at hlen1
          exact pySplitAux_ne_nil "list=".data r2.length r2 [] hlen1
      simp only [extract_playlist_id, extract_claim, haf, Option.isSome_some,
        if_true, hd, hd2]
      rw [show ([upToFirstPat "list=".data url.data, rest].getD 1 [] : List Char)
          = rest by simp [List.getD]]
      rw [pySplit_headD (by decide : ("&".data : List Char) ≠ []) rest]
  · intro h
    simp [extract_playlist_id, h]

/-- C9 witness: the amended claim applied at a single-occurrence URL and at a
URL without `list=`. -/
theorem C9_amended_extraction_witness :
    ((pySplit "list=".data "a?list=PL1&b".data).length = 2 ∧
      extract_playlist_id "a?list=PL1&b" = extract_claim "a?list=PL1&b") ∧
    extract_playlist_id "nope" = .error ("Invalid playlist URL: " ++ "nope") :=
  ⟨⟨by decide, (C9_amended_extraction "a?list=PL1&b").1 (by decide)⟩,
   (C9_amended_extraction "nope").2 (by decide)⟩

/-! ## Theorems about the storage stub -/

/-- C10: `store_raw_transcript_in_google_docs` is deterministic and its
returned location is independent of the transcript text: any two texts give
the same result, namely the placeholder URL followed by the video id. -/
theorem C10_store_deterministic (video_id t1 t2 : String) :
    store_raw_transcript_in_google_docs video_id t1 =
      store_raw_transcript_in_google_docs video_id t2 ∧
    store_raw_transcript_in_google_docs video_id t1 =
      some ("https://docs.google.com/document/d/placeholder_" ++ video_id) :=
  ⟨rfl, rfl⟩

end YTP
